import Mathlib

/-!
Verification of the AiSchool backend's caching / quota / async-job core
(`index.ts`), shallowly embedded in Lean 4.

Strings from the TypeScript source are modelled as `List Char` (`Str`),
JavaScript numbers used for mastery arithmetic as `ℚ`, and integer quota
columns as `Int`.  The relational store, the Redis cache, the homework job
table and the popularity counters are modelled as association lists inside
an explicit `AppState`; each HTTP endpoint of the core becomes a pure state
transformer (`runOp`), and the generation capability is an oracle input
(`Option`/`Except` valued), matching the spec's black-box treatment of
`generate`.
-/

namespace AiSchool

/-- Characters of a JavaScript string. -/
abbrev Str := List Char

/-! ## Association-list primitives (rows of a table / Redis keys) -/

/-- Look up the first binding of key `k` (SQL `SELECT ... WHERE id = k`,
Redis `GET k`). -/
def alookup {α β : Type} [DecidableEq α] (k : α) : List (α × β) → Option β
  | [] => none
  | (k', v) :: rest => if k' = k then some v else alookup k rest

/-- Overwrite-or-insert a binding (Redis `SETEX`). -/
def aset {α β : Type} [DecidableEq α] (k : α) (v : β) : List (α × β) → List (α × β)
  | [] => [(k, v)]
  | (k', v') :: rest => if k' = k then (k, v) :: rest else (k', v') :: aset k v rest

/-- Update every row whose key is `k`, in place (SQL `UPDATE ... WHERE id = k`;
no row is inserted when the key is absent). -/
def aupdate {α β : Type} [DecidableEq α] (k : α) (f : β → β) : List (α × β) → List (α × β)
  | [] => []
  | (k', v) :: rest =>
    if k' = k then (k', f v) :: aupdate k f rest else (k', v) :: aupdate k f rest

/-- Remove all bindings of key `k` (Redis `DEL k`). -/
def aerase {α β : Type} [DecidableEq α] (k : α) : List (α × β) → List (α × β)
  | [] => []
  | (k', v) :: rest => if k' = k then aerase k rest else (k', v) :: aerase k rest

/-- Increment-or-create a counter (Redis `INCR`, which initialises an absent
key to `0` before adding one). -/
def aincr {α : Type} [DecidableEq α] (k : α) (l : List (α × Nat)) : List (α × Nat) :=
  match alookup k l with
  | some n => aset k (n + 1) l
  | none => aset k 1 l

/-! ## Data model -/

/-- The three confidence tiers (`'low' | 'medium' | 'high'`). -/
inductive Confidence
  | low
  | medium
  | high
deriving DecidableEq, Repr

/-- The string stored for each tier. -/
def confStr : Confidence → Str
  | .low => "low".toList
  | .medium => "medium".toList
  | .high => "high".toList

/-- One entry of `users.skill_profile` (`skillProfile[lessonId]`). -/
structure SkillRecord where
  masteryScore : ℚ
  confidence : Confidence
  lastAttempt : Str
deriving DecidableEq, Repr

/-- The columns of a `users` row that the core touches. -/
structure UserRow where
  quota_used : Int
  quota_limit : Int
  skill_profile : List (Str × SkillRecord)
deriving DecidableEq, Repr

/-- The parsed lesson payload `{ content, keywords }` cached and returned by
the generation endpoint. -/
structure LessonData where
  content : Str
  keywords : List Str
deriving DecidableEq, Repr

/-- `homework_jobs.status`, with the payload column written together with each
terminal status (`solution` / `failure_reason`). -/
inductive JobStatus
  | pending
  | processing
  | completed (solution : Str)
  | failed (reason : Str)
deriving DecidableEq, Repr

/-- A `homework_jobs` row. -/
structure JobRow where
  user_id : Str
  status : JobStatus
deriving DecidableEq, Repr

/-- The mutable state of the core: the `users` table, the Redis lesson cache,
the `homework_jobs` table and the Redis `lesson_count:*` popularity counters
(keyed here directly by lesson id). -/
structure AppState where
  users : List (Str × UserRow)
  cache : List (Str × LessonData)
  jobs : List (Nat × JobRow)
  popularity : List (Str × Nat)
deriving DecidableEq, Repr

/-! ## Quota ledger (`checkQuota` / `updateQuota`) -/

/-- `checkQuota(userId, cost)`: reads the user's row and returns whether
`quota_used + cost <= quota_limit`; `none` models the thrown exception when
the row is absent (`result.rows[0]` is undefined). -/
def checkQuota (users : List (Str × UserRow)) (uid : Str) (cost : Int) : Option Bool :=
  (alookup uid users).map fun u => decide (u.quota_used + cost ≤ u.quota_limit)

/-- `updateQuota(userId, cost)`: `UPDATE users SET quota_used = quota_used + cost
WHERE id = userId`, with no condition on the limit. -/
def updateQuota (users : List (Str × UserRow)) (uid : Str) (cost : Int) :
    List (Str × UserRow) :=
  aupdate uid (fun u => { u with quota_used := u.quota_used + cost }) users

/-! ## Skill computation (`POST /api/lessons/:lessonId/update-skill`) -/

/-- `totalQuestions > 0 ? score / totalQuestions : 0`. -/
def computeMastery (score totalQuestions : ℚ) : ℚ :=
  if totalQuestions > 0 then score / totalQuestions else 0

/-- `newMastery > 0.7 ? 'high' : newMastery > 0.4 ? 'medium' : 'low'`. -/
def confidenceFor (m : ℚ) : Confidence :=
  if m > 7/10 then .high else if m > 2/5 then .medium else .low

/-- The confidence tier used for the cache key:
`skillProfile[lessonId]?.confidence || 'low'`. -/
def tierOf (u : UserRow) (lessonId : Str) : Confidence :=
  ((alookup lessonId u.skill_profile).map (fun r => r.confidence)).getD .low

/-- The grouped cache key `lesson:${lessonId}:group:${confidence}`. -/
def cacheKey (lessonId : Str) (c : Confidence) : Str :=
  "lesson:".toList ++ lessonId ++ ":group:".toList ++ confStr c

/-! ## The `KEYWORDS:` output parser of the generation endpoint -/

/-- The marker string `"KEYWORDS:"`. -/
def kwMarker : Str := "KEYWORDS:".toList

/-- `true` when `marker` occurs in `text` starting at position `i`
(the substring of `marker.length` characters starting at `i` is `marker`). -/
def occursAt (text marker : Str) (i : Nat) : Bool :=
  decide ((text.drop i).take marker.length = marker)

/-- JavaScript `text.lastIndexOf(marker)`: the greatest position at which
`marker` occurs, `none` when it does not occur (`-1`). -/
def lastIndexOf (text marker : Str) : Option Nat :=
  ((List.range (text.length + 1)).filter (occursAt text marker)).getLast?

/-- JavaScript `String.prototype.trim`: strip leading and trailing
whitespace. -/
def jsTrim (s : Str) : Str :=
  ((s.dropWhile Char.isWhitespace).reverse.dropWhile Char.isWhitespace).reverse

/-- JavaScript `s.split(',')`. -/
def splitComma : Str → List Str
  | [] => [[]]
  | c :: rest =>
    match splitComma rest with
    | [] => [[]]
    | h :: t => if c = ',' then [] :: h :: t else (c :: h) :: t

/-- `keywordString.split(',').map(k => k.trim()).filter(k => k)`: comma-split,
trim each piece, drop the empty (falsy) ones. -/
def keywordsOf (keywordString : Str) : List Str :=
  ((splitComma keywordString).map jsTrim).filter fun k => decide (k ≠ [])

/-- The response parser of `POST /api/lessons/:lessonId/generate` (and of the
proactive warmer, which duplicates it verbatim): content before the last
`KEYWORDS:` marker (trimmed) plus the keyword list after it; the whole text
and no keywords when the marker is absent. -/
def parseLesson (responseText : Str) : LessonData :=
  match lastIndexOf responseText kwMarker with
  | none => ⟨responseText, []⟩
  | some i =>
    ⟨jsTrim (responseText.take i),
     keywordsOf (jsTrim (responseText.drop (i + kwMarker.length)))⟩

/-! ## Async homework job runner (`processHomeworkJob`) -/

/-- The fallback failure reason
`error.message || "An unknown error occurred during AI processing."`. -/
def defaultFailureMsg : Str :=
  "An unknown error occurred during AI processing.".toList

/-- The fallback solution used when the model returns no text block. -/
def noTextSolution : Str := "Sorry, I couldn't find a text solution.".toList

/-- The sequence of `UPDATE homework_jobs SET status = ...` writes performed by
`processHomeworkJob` for one job, as a function of the generation outcome
(`.ok solution` or `.error message`). -/
def runnerWrites (gen : Except Str Str) : List JobStatus :=
  [JobStatus.processing] ++
    [match gen with
     | .ok sol => JobStatus.completed sol
     | .error msg => JobStatus.failed (if msg = [] then defaultFailureMsg else msg)]

/-- The full status history of a job: created `pending` by
`POST /api/homework/submit`, then the runner's writes in order. -/
def jobTrace (gen : Except Str Str) : List JobStatus :=
  JobStatus.pending :: runnerWrites gen

/-- A terminal status. -/
def isTerminal : JobStatus → Bool
  | .completed _ => true
  | .failed _ => true
  | _ => false

/-- The transition relation claimed by the spec:
`pending → processing → completed | failed` and nothing else. -/
def allowedStep : JobStatus → JobStatus → Bool
  | .pending, .processing => true
  | .processing, .completed _ => true
  | .processing, .failed _ => true
  | _, _ => false

/-! ## Endpoint semantics -/

deriving instance DecidableEq for Except

/-- One costed request against the core, together with the oracle inputs that
decide its environment-dependent branches: whether the unit/lesson exists in
the stored curriculum, and what the black-box generation capability returns
(`none`/`.error` = provider or output-parse failure). -/
inductive Op
  | diagnostic (uid unitId : Str) (unitFound : Bool) (genOk : Bool)
  | generate (uid lessonId : Str) (lessonFound : Bool) (genText : Option Str)
  | questions (uid lessonId : Str) (lessonFound : Bool) (genOk : Bool)
  | homework (uid : Str) (gen : Except Str Str)
deriving DecidableEq, Repr

/-- The HTTP-level outcome of an operation.  For homework submission the
`accepted` result also records the job's final status, since the model runs
the fire-and-forget `processHomeworkJob` to completion. -/
inductive OpResult
  | ok
  | okLesson (data : LessonData)
  | accepted (jobId : Nat) (finalStatus : JobStatus)
  | quotaExceeded
  | notFound
  | serverError
deriving DecidableEq, Repr

/-- A call into the generation capability, for tracing which operations
actually perform costed generation work. -/
inductive GenCall
  | diagnosticGen (unitId : Str)
  | lessonGen (lessonId : Str) (tier : Confidence)
  | questionsGen (lessonId : Str)
  | homeworkGen (jobId : Nat)
deriving DecidableEq, Repr

/-- The user a request is authenticated as. -/
def opUser : Op → Str
  | .diagnostic uid _ _ _ => uid
  | .generate uid _ _ _ => uid
  | .questions uid _ _ _ => uid
  | .homework uid _ => uid

/-- The fixed cost each endpoint passes to `quotaCheck` / `checkQuota`. -/
def nominalCost : Op → Int
  | .diagnostic _ _ _ _ => 5
  | .generate _ _ _ _ => 10
  | .questions _ _ _ _ => 5
  | .homework _ _ => 15

/-- A fresh `homework_jobs` id, larger than every existing id. -/
def freshJobId (jobs : List (Nat × JobRow)) : Nat :=
  (jobs.map fun p => p.1).foldr max 0 + 1

/-- One endpoint execution: the resulting state, the response, and the list of
generation calls made.  Each branch mirrors the order of effects in
`index.ts`: quota check first (402 on failure), then — for the lesson
endpoint — the popularity `INCR`, curriculum lookup (404), cache lookup
(cached hit returns without `updateQuota`), generation call, parse,
`SETEX`, `updateQuota`, 200. -/
def runOp (s : AppState) : Op → AppState × OpResult × List GenCall
  | .diagnostic uid unitId unitFound genOk =>
    match alookup uid s.users with
    | none => (s, .serverError, [])
    | some u =>
      if u.quota_used + 5 ≤ u.quota_limit then
        if unitFound then
          if genOk then
            ({ s with users := updateQuota s.users uid 5 }, .ok, [.diagnosticGen unitId])
          else (s, .serverError, [.diagnosticGen unitId])
        else (s, .notFound, [])
      else (s, .quotaExceeded, [])
  | .generate uid lessonId lessonFound genText =>
    match alookup uid s.users with
    | none => (s, .serverError, [])
    | some u =>
      if u.quota_used + 10 ≤ u.quota_limit then
        let s1 : AppState := { s with popularity := aincr lessonId s.popularity }
        if lessonFound then
          let conf := tierOf u lessonId
          let key := cacheKey lessonId conf
          match alookup key s1.cache with
          | some cached => (s1, .okLesson cached, [])
          | none =>
            match genText with
            | none => (s1, .serverError, [.lessonGen lessonId conf])
            | some t =>
              let data := parseLesson t
              ({ s1 with
                  cache := aset key data s1.cache,
                  users := updateQuota s1.users uid 10 },
               .okLesson data, [.lessonGen lessonId conf])
        else (s1, .notFound, [])
      else (s, .quotaExceeded, [])
  | .questions uid lessonId lessonFound genOk =>
    match alookup uid s.users with
    | none => (s, .serverError, [])
    | some u =>
      if u.quota_used + 5 ≤ u.quota_limit then
        if lessonFound then
          if genOk then
            ({ s with users := updateQuota s.users uid 5 }, .ok, [.questionsGen lessonId])
          else (s, .serverError, [.questionsGen lessonId])
        else (s, .notFound, [])
      else (s, .quotaExceeded, [])
  | .homework uid gen =>
    match alookup uid s.users with
    | none => (s, .serverError, [])
    | some u =>
      if u.quota_used + 15 ≤ u.quota_limit then
        let jid := freshJobId s.jobs
        let jobs0 := s.jobs ++ [(jid, ⟨uid, .pending⟩)]
        let jobs1 := aupdate jid (fun j => { j with status := .processing }) jobs0
        match gen with
        | .ok sol =>
          let jobs2 := aupdate jid (fun j => { j with status := .completed sol }) jobs1
          ({ s with jobs := jobs2, users := updateQuota s.users uid 15 },
           .accepted jid (.completed sol), [.homeworkGen jid])
        | .error msg =>
          let reason := if msg = [] then defaultFailureMsg else msg
          let jobs2 := aupdate jid (fun j => { j with status := .failed reason }) jobs1
          ({ s with jobs := jobs2 }, .accepted jid (.failed reason), [.homeworkGen jid])
      else (s, .quotaExceeded, [])

/-- Run a sequence of operations, collecting the responses. -/
def runOps (s : AppState) : List Op → AppState × List OpResult
  | [] => (s, [])
  | op :: rest =>
    let step := runOp s op
    let tail := runOps step.1 rest
    (tail.1, step.2.1 :: tail.2)

/-- An operation that completed successfully: a 200 response, or a homework
job that reached `completed`. -/
def isSuccess : OpResult → Bool
  | .ok => true
  | .okLesson _ => true
  | .accepted _ (.completed _) => true
  | _ => false

/-- `quota_used` of a user, `0` when the row is absent. -/
def quotaUsedOf (uid : Str) (s : AppState) : Int :=
  ((alookup uid s.users).map fun u => u.quota_used).getD 0

/-- The amount an operation adds to `uid`'s `quota_used` when it completes
successfully from state `s`: its nominal cost, except that a lesson
generation served from the cache charges nothing. -/
def chargeFor (uid : Str) (s : AppState) (op : Op) : Int :=
  if opUser op = uid then
    match op with
    | .generate _ lessonId _ _ =>
      match alookup uid s.users with
      | some u =>
        if (alookup (cacheKey lessonId (tierOf u lessonId)) s.cache).isSome then 0 else 10
      | none => 0
    | op => nominalCost op
  else 0

/-- Total charge of a sequence against `uid`, threading the state. -/
def totalCharge (uid : Str) (s : AppState) : List Op → Int
  | [] => 0
  | op :: rest => chargeFor uid s op + totalCharge uid (runOp s op).1 rest

/-! ## Proactive warmer (nightly cron job) -/

/-- One fetched popularity counter. -/
structure LessonCount where
  lessonId : Str
  count : Nat
deriving DecidableEq, Repr

/-- The comparator `(a, b) => b.count - a.count` as an order relation:
`a` may come before `b` iff `b.count ≤ a.count`. -/
def countGE (a b : LessonCount) : Prop := b.count ≤ a.count

instance : DecidableRel countGE := fun a b => Nat.decLe b.count a.count

instance : IsTotal LessonCount countGE := ⟨fun a b => Nat.le_total b.count a.count⟩

instance : IsTrans LessonCount countGE := ⟨fun _ _ _ h1 h2 => Nat.le_trans h2 h1⟩

/-- `lessonCounts.sort((a, b) => b.count - a.count)`: a stable descending
sort by count (JavaScript `Array.prototype.sort` is stable). -/
def sortLessons (l : List LessonCount) : List LessonCount :=
  List.insertionSort countGE l

/-- `.slice(0, 10)`: the top 10 after sorting. -/
def rankLessons (l : List LessonCount) : List LessonCount :=
  (sortLessons l).take 10

/-- The popularity counters as the warmer fetches them. -/
def countsOf (s : AppState) : List LessonCount :=
  s.popularity.map fun p => ⟨p.1, p.2⟩

/-- The warmer's fixed tier sweep `['low', 'medium', 'high']`. -/
def tiers : List Confidence := [.low, .medium, .high]

/-- One (lesson, tier) step of the warmer: skip if the cache already holds the
key, otherwise generate, parse and `SETEX` for 24 hours. -/
def warmOne (gen : Str → Confidence → Str) (lessonId : Str)
    (acc : List (Str × LessonData) × List GenCall) (c : Confidence) :
    List (Str × LessonData) × List GenCall :=
  match alookup (cacheKey lessonId c) acc.1 with
  | some _ => acc
  | none =>
    (aset (cacheKey lessonId c) (parseLesson (gen lessonId c)) acc.1,
     acc.2 ++ [.lessonGen lessonId c])

/-- One popular lesson: skipped entirely when absent from the curriculum
(`findLessonById` returned null), otherwise warmed across all three tiers. -/
def warmLesson (curriculum : List Str) (gen : Str → Confidence → Str)
    (acc : List (Str × LessonData) × List GenCall) (lc : LessonCount) :
    List (Str × LessonData) × List GenCall :=
  if lc.lessonId ∈ curriculum then tiers.foldl (warmOne gen lc.lessonId) acc else acc

/-- The nightly proactive generation sweep: return unchanged when there are no
popularity counters, otherwise rank the counters and fill the cache gaps of
the top lessons across the three tiers.  `curriculum` is the set of lesson
ids present in the stored curriculums, and `gen` the generation oracle. -/
def runWarmer (curriculum : List Str) (gen : Str → Confidence → Str) (s : AppState) :
    AppState × List GenCall :=
  if s.popularity = [] then (s, [])
  else
    let result := (rankLessons (countsOf s)).foldl (warmLesson curriculum gen) (s.cache, [])
    ({ s with cache := result.1 }, result.2)

/-! ## Skill-update endpoint (`POST /api/lessons/:lessonId/update-skill`) -/

/-- The skill-update operation: recompute the lesson's mastery and confidence
from `score / totalQuestions`, store the new `SkillRecord` under the lesson id
(`?.skill_profile || {}` tolerates a missing user row; the SQL `UPDATE` then
touches no row), and `DEL` the cache entry of the lesson under the **newly**
computed confidence group. -/
def updateSkill (s : AppState) (uid lessonId : Str) (score totalQuestions : ℚ)
    (now : Str) : AppState :=
  let profile := ((alookup uid s.users).map fun u => u.skill_profile).getD []
  let newMastery := computeMastery score totalQuestions
  let conf := confidenceFor newMastery
  let profile1 := aset lessonId ⟨newMastery, conf, now⟩ profile
  { s with
      users := aupdate uid (fun u => { u with skill_profile := profile1 }) s.users,
      cache := aerase (cacheKey lessonId conf) s.cache }

/-- Every response in a list reports success. -/
def allSucceeded (rs : List OpResult) : Prop := ∀ r ∈ rs, isSuccess r = true

instance (rs : List OpResult) : Decidable (allSucceeded rs) :=
  inferInstanceAs (Decidable (∀ r ∈ rs, isSuccess r = true))

/-! # Theorems -/

/-! ## Association-list lemmas -/

theorem alookup_aset_self {α β : Type} [DecidableEq α] (k : α) (v : β) (l : List (α × β)) :
    alookup k (aset k v l) = some v := by
  induction l with
  | nil => simp [aset, alookup]
  | cons p rest ih =>
    obtain ⟨a, b⟩ := p
    by_cases h : a = k <;> simp [aset, alookup, h, ih]

theorem alookup_aset_ne {α β : Type} [DecidableEq α] (k k' : α) (v : β) (l : List (α × β))
    (h : k' ≠ k) : alookup k' (aset k v l) = alookup k' l := by
  induction l with
  | nil => simp [aset, alookup, Ne.symm h]
  | cons p rest ih =>
    obtain ⟨a, b⟩ := p
    by_cases hp : a = k
    · subst hp
      simp [aset, alookup, Ne.symm h]
    · simp [aset, alookup, hp, ih]

theorem alookup_aupdate_self {α β : Type} [DecidableEq α] (k : α) (f : β → β)
    (l : List (α × β)) : alookup k (aupdate k f l) = (alookup k l).map f := by
  induction l with
  | nil => simp [aupdate, alookup]
  | cons p rest ih =>
    obtain ⟨a, b⟩ := p
    by_cases h : a = k <;> simp [aupdate, alookup, h, ih]

theorem alookup_aupdate_ne {α β : Type} [DecidableEq α] (k k' : α) (f : β → β)
    (l : List (α × β)) (h : k' ≠ k) :
    alookup k' (aupdate k f l) = alookup k' l := by
  induction l with
  | nil => simp [aupdate, alookup]
  | cons p rest ih =>
    obtain ⟨a, b⟩ := p
    by_cases hp : a = k
    · subst hp
      simp [aupdate, alookup, Ne.symm h, ih]
    · simp [aupdate, alookup, hp, ih]

theorem alookup_aerase_self {α β : Type} [DecidableEq α] (k : α) (l : List (α × β)) :
    alookup k (aerase k l) = none := by
  induction l with
  | nil => simp [aerase, alookup]
  | cons p rest ih =>
    obtain ⟨a, b⟩ := p
    by_cases h : a = k <;> simp [aerase, alookup, h, ih]

theorem alookup_aerase_ne {α β : Type} [DecidableEq α] (k k' : α) (l : List (α × β))
    (h : k' ≠ k) : alookup k' (aerase k l) = alookup k' l := by
  induction l with
  | nil => simp [aerase, alookup]
  | cons p rest ih =>
    obtain ⟨a, b⟩ := p
    by_cases hp : a = k
    · subst hp
      simp [aerase, alookup, Ne.symm h, ih]
    · simp [aerase, alookup, hp, ih]

/-! ## Cache-key lemmas -/

theorem getLast_of_append {l m : Str} (h : m ≠ []) :
    (l ++ m).getLast? = m.getLast? := by
  rw [List.getLast?_append]
  cases hm : m.getLast? with
  | none => exact absurd (List.getLast?_eq_none_iff.mp hm) h
  | some a => simp

theorem confStr_ne_nil (c : Confidence) : confStr c ≠ [] := by
  cases c <;> simp [confStr]

theorem cacheKey_getLast (lessonId : Str) (c : Confidence) :
    (cacheKey lessonId c).getLast? = (confStr c).getLast? := by
  simp only [cacheKey]
  rw [getLast_of_append (confStr_ne_nil c)]

theorem cacheKey_inj {lid1 lid2 : Str} {c1 c2 : Confidence}
    (h : cacheKey lid1 c1 = cacheKey lid2 c2) : lid1 = lid2 ∧ c1 = c2 := by
  have hc : c1 = c2 := by
    have h' := congrArg List.getLast? h
    rw [cacheKey_getLast, cacheKey_getLast] at h'
    cases c1 <;> cases c2 <;> first
      | rfl
      | exact absurd h' (by simp [confStr])
  subst hc
  refine ⟨?_, rfl⟩
  simp only [cacheKey] at h
  have h1 := List.append_cancel_right h
  have h2 := List.append_cancel_right h1
  exact List.append_cancel_left h2

/-! ## C6: the quota ledger contract -/

/-- C6: `checkQuota(userId, cost)` returns `true` exactly when
`quota_used + cost <= quota_limit` for that user (and, being a plain read,
mutates nothing — in this embedding its type has no state output), while
`updateQuota` adds `cost` to `quota_used` unconditionally, whatever the limit,
and touches no other user's row. -/
theorem c6_quota_contract (users : List (Str × UserRow)) (uid : Str) (cost : Int)
    (u : UserRow) (hu : alookup uid users = some u) :
    (checkQuota users uid cost = some true ↔ u.quota_used + cost ≤ u.quota_limit) ∧
    alookup uid (updateQuota users uid cost) =
      some { u with quota_used := u.quota_used + cost } ∧
    (∀ k, k ≠ uid → alookup k (updateQuota users uid cost) = alookup k users) := by
  refine ⟨?_, ?_, ?_⟩
  · simp [checkQuota, hu]
  · rw [updateQuota, alookup_aupdate_self, hu]
    rfl
  · intro k hk
    exact alookup_aupdate_ne uid k _ users hk

/-- Witness for C6 at a concrete ledger: a user at 3 of limit 10 passes a
cost-5 check, and the unconditional reserve raises 3 to 8. -/
theorem c6_quota_contract_witness :
    (checkQuota [(['u'], ⟨3, 10, []⟩)] ['u'] 5 = some true ↔ (3 : Int) + 5 ≤ 10) ∧
    alookup ['u'] (updateQuota [(['u'], ⟨3, 10, []⟩)] ['u'] 5) =
      some ⟨3 + 5, 10, []⟩ ∧
    (∀ k, k ≠ ['u'] →
      alookup k (updateQuota [(['u'], ⟨3, 10, []⟩)] ['u'] 5) =
        alookup k [(['u'], ⟨3, 10, []⟩)]) :=
  c6_quota_contract [(['u'], ⟨3, 10, []⟩)] ['u'] 5 ⟨3, 10, []⟩ (by decide)

/-! ## C5: insufficient quota blocks the costed work -/

/-- C5: when the requesting user's `quota_used + cost` exceeds `quota_limit`
at check time, every quota-protected operation returns the distinguished
insufficient-quota response (HTTP 402) with the state completely unchanged —
no generation call, no job row, no quota increment, no cache or popularity
write. -/
theorem c5_quota_gate (s : AppState) (op : Op) (u : UserRow)
    (hu : alookup (opUser op) s.users = some u)
    (hq : ¬ u.quota_used + nominalCost op ≤ u.quota_limit) :
    runOp s op = (s, .quotaExceeded, []) := by
  cases op <;>
    simp only [opUser] at hu <;>
    simp only [nominalCost] at hq <;>
    simp [runOp, hu, hq]

/-- Witness for C5: a diagnostic-test request (cost 5) by a user at 998 of
1000 is rejected with 402 and the state is untouched. -/
theorem c5_quota_gate_witness :
    runOp ⟨[(['u'], ⟨998, 1000, []⟩)], [], [], []⟩ (.diagnostic ['u'] ['n'] true true) =
      (⟨[(['u'], ⟨998, 1000, []⟩)], [], [], []⟩, .quotaExceeded, []) :=
  c5_quota_gate ⟨[(['u'], ⟨998, 1000, []⟩)], [], [], []⟩
    (.diagnostic ['u'] ['n'] true true) ⟨998, 1000, []⟩ (by decide) (by decide)

/-! ## C1: skill-update mastery and confidence -/

/-- C1 counterexample: with score 7 of 10 questions the mastery score is
exactly `0.7`, but the code's strict comparison `newMastery > 0.7` classifies
it as `medium`, not `high` as the claim states. -/
theorem c1_boundary_counterexample :
    computeMastery 7 10 = 7/10 ∧
    confidenceFor (computeMastery 7 10) = Confidence.medium ∧
    Confidence.medium ≠ Confidence.high := by
  refine ⟨by norm_num [computeMastery], ?_, by decide⟩
  norm_num [computeMastery, confidenceFor]

/-- C1 (amended): with score 7 of 10 questions the resulting mastery score is
`0.7` and the resulting confidence tier is `medium`; in general the tiers are
derived from the mastery score by the fixed thresholds `0.7` and `0.4` as
strict lower bounds: `high` iff `m > 0.7`, `medium` iff `0.4 < m ≤ 0.7`,
`low` iff `m ≤ 0.4`. -/
theorem c1_skill_thresholds :
    computeMastery 7 10 = 7/10 ∧
    confidenceFor (computeMastery 7 10) = Confidence.medium ∧
    ∀ m : ℚ,
      (confidenceFor m = Confidence.high ↔ 7/10 < m) ∧
      (confidenceFor m = Confidence.medium ↔ 2/5 < m ∧ m ≤ 7/10) ∧
      (confidenceFor m = Confidence.low ↔ m ≤ 2/5) := by
  refine ⟨by norm_num [computeMastery], by norm_num [computeMastery, confidenceFor], ?_⟩
  intro m
  by_cases h1 : 7/10 < (m : ℚ)
  · have h2 : 2/5 < m := lt_trans (by norm_num) h1
    simp [confidenceFor, h1, h2, not_le.mpr h1]
  · by_cases h2 : 2/5 < (m : ℚ)
    · simp [confidenceFor, h1, h2, not_lt.mp h1, not_le.mpr h2]
    · simp [confidenceFor, h1, h2, not_lt.mp h2]

/-- Witness for C1's amended theorem: mastery `1` (all answers right) lands in
the `high` tier. -/
theorem c1_skill_thresholds_witness : confidenceFor 1 = Confidence.high :=
  ((c1_skill_thresholds.2.2 1).1).mpr (by norm_num)

/-! ## C3: the homework job state machine -/

/-- C3: a homework job's status history is exactly
`pending → processing → completed` or `pending → processing → failed`: every
adjacent pair of statuses is an allowed transition, the runner writes exactly
one terminal status, that terminal status is last (so no transition ever
leaves a terminal state), a successful generation yields `completed` with its
solution, and a failure yields `failed` with a non-empty captured reason. -/
theorem c3_job_state_machine (gen : Except Str Str) :
    List.Chain' (fun a b => allowedStep a b = true) (jobTrace gen) ∧
    ((jobTrace gen).filter isTerminal).length = 1 ∧
    (∃ last, (jobTrace gen).getLast? = some last ∧ isTerminal last = true) ∧
    (∀ a b, allowedStep a b = true → isTerminal a = false) ∧
    (∀ sol, gen = .ok sol →
      jobTrace gen = [.pending, .processing, .completed sol]) ∧
    (∀ msg, gen = .error msg →
      ∃ r, jobTrace gen = [.pending, .processing, .failed r] ∧ r ≠ []) := by
  have hstep : ∀ a b : JobStatus, allowedStep a b = true → isTerminal a = false := by
    intro a b hab
    cases a <;> cases b <;> simp_all [allowedStep, isTerminal]
  cases gen with
  | ok sol =>
    refine ⟨?_, ?_, ⟨.completed sol, ?_, rfl⟩, hstep, ?_, ?_⟩ <;>
      simp [jobTrace, runnerWrites, allowedStep, isTerminal]
  | error msg =>
    have hr : (if msg = [] then defaultFailureMsg else msg) ≠ [] := by
      by_cases h : msg = [] <;> simp [h, defaultFailureMsg]
    refine ⟨?_, ?_, ⟨.failed (if msg = [] then defaultFailureMsg else msg), ?_, rfl⟩,
      hstep, ?_, ?_⟩
    · simp [jobTrace, runnerWrites, allowedStep]
    · simp [jobTrace, runnerWrites, isTerminal]
    · simp [jobTrace, runnerWrites]
    · intro sol hsol
      exact absurd hsol (by simp)
    · intro m hm
      cases hm
      exact ⟨if msg = [] then defaultFailureMsg else msg,
        by simp [jobTrace, runnerWrites], hr⟩

/-- Witness for C3 at a concrete failing generation with an empty error
message: the trace ends in `failed` carrying the default captured reason. -/
theorem c3_job_state_machine_witness :
    List.Chain' (fun a b => allowedStep a b = true) (jobTrace (.error [])) ∧
    ((jobTrace (.error [])).filter isTerminal).length = 1 ∧
    (∃ last, (jobTrace (.error [])).getLast? = some last ∧ isTerminal last = true) ∧
    (∀ a b, allowedStep a b = true → isTerminal a = false) ∧
    (∀ sol, (Except.error [] : Except Str Str) = .ok sol →
      jobTrace (.error []) = [.pending, .processing, .completed sol]) ∧
    (∀ msg, (Except.error [] : Except Str Str) = .error msg →
      ∃ r, jobTrace (.error []) = [.pending, .processing, .failed r] ∧ r ≠ []) :=
  c3_job_state_machine (.error [])

/-! ## C9: skill-update cache-invalidation frame -/

/-- C9: a skill update deletes exactly the cache entry of the given lesson
under the newly computed confidence tier; every other key — in particular the
same lesson under every other tier (which includes the user's previous tier
when it differs from the new one) and every other lesson under any tier — is
left unchanged. -/
theorem c9_invalidation_frame (s : AppState) (uid lessonId : Str)
    (score totalQuestions : ℚ) (now : Str) :
    alookup (cacheKey lessonId (confidenceFor (computeMastery score totalQuestions)))
        (updateSkill s uid lessonId score totalQuestions now).cache = none ∧
    (∀ k, k ≠ cacheKey lessonId (confidenceFor (computeMastery score totalQuestions)) →
      alookup k (updateSkill s uid lessonId score totalQuestions now).cache =
        alookup k s.cache) ∧
    (∀ lid c,
      lid ≠ lessonId ∨ c ≠ confidenceFor (computeMastery score totalQuestions) →
      alookup (cacheKey lid c)
          (updateSkill s uid lessonId score totalQuestions now).cache =
        alookup (cacheKey lid c) s.cache) := by
  refine ⟨?_, ?_, ?_⟩
  · simp only [updateSkill]
    exact alookup_aerase_self _ _
  · intro k hk
    simp only [updateSkill]
    exact alookup_aerase_ne _ _ _ hk
  · intro lid c hne
    simp only [updateSkill]
    apply alookup_aerase_ne
    intro heq
    rcases cacheKey_inj heq with ⟨h1, h2⟩
    rcases hne with h | h
    · exact h h1
    · exact h h2

/-- Witness for C9: updating lesson `l` with 7/10 (new tier `medium`) leaves
the cached entry of the same lesson under the `low` tier untouched. -/
theorem c9_invalidation_frame_witness :
    alookup (cacheKey ['l'] Confidence.low)
        (updateSkill ⟨[], [(cacheKey ['l'] Confidence.low, ⟨['a'], []⟩)], [], []⟩
          ['u'] ['l'] 7 10 []).cache =
      alookup (cacheKey ['l'] Confidence.low)
        (⟨[], [(cacheKey ['l'] Confidence.low, ⟨['a'], []⟩)], [], []⟩ : AppState).cache :=
  (c9_invalidation_frame ⟨[], [(cacheKey ['l'] Confidence.low, ⟨['a'], []⟩)], [], []⟩
      ['u'] ['l'] 7 10 []).2.2 ['l'] Confidence.low
    (Or.inr (fun h => by
      norm_num [computeMastery, confidenceFor] at h
      exact Confidence.noConfusion h))

/-! ## C10: the KEYWORDS parser is total -/

theorem occursAt_of_len_le (text : Str) (i : Nat) (h : text.length ≤ i) :
    occursAt text kwMarker i = false := by
  simp only [occursAt, decide_eq_false_iff_not]
  rw [List.drop_eq_nil_of_le h]
  simp [kwMarker]

theorem lastIndexOf_none_iff (text : Str) :
    lastIndexOf text kwMarker = none ↔ ∀ i, occursAt text kwMarker i = false := by
  constructor
  · intro h i
    by_cases hi : i ≤ text.length
    · have hnil : (List.range (text.length + 1)).filter (occursAt text kwMarker) = [] :=
        List.getLast?_eq_none_iff.mp h
      have hmem := List.filter_eq_nil_iff.mp hnil i
        (List.mem_range.mpr (Nat.lt_succ_of_le hi))
      simpa using hmem
    · exact occursAt_of_len_le text i (Nat.le_of_lt (Nat.lt_of_not_le hi))
  · intro h
    apply List.getLast?_eq_none_iff.mpr
    apply List.filter_eq_nil_iff.mpr
    intro i _
    simp [h i]

theorem getLast?_max_of_sorted (l : List Nat) (hs : List.Sorted (· < ·) l) (i : Nat)
    (hlast : l.getLast? = some i) : ∀ j ∈ l, j ≤ i := by
  induction l with
  | nil => intro j hj; simp at hj
  | cons a t ih =>
    intro j hj
    cases t with
    | nil =>
      simp only [List.getLast?_singleton, Option.some.injEq] at hlast
      rcases List.mem_singleton.mp hj with rfl
      omega
    | cons b t2 =>
      rw [List.getLast?_cons_cons] at hlast
      have hs' := (List.sorted_cons.mp hs).2
      rcases List.mem_cons.mp hj with rfl | hj2
      · have hi_mem : i ∈ b :: t2 := List.mem_of_getLast?_eq_some hlast
        exact Nat.le_of_lt ((List.sorted_cons.mp hs).1 i hi_mem)
      · exact ih hs' hlast j hj2

theorem lastIndexOf_spec (text : Str) (i : Nat)
    (h : lastIndexOf text kwMarker = some i) :
    occursAt text kwMarker i = true ∧ ∀ j, i < j → occursAt text kwMarker j = false := by
  have hmem : i ∈ (List.range (text.length + 1)).filter (occursAt text kwMarker) :=
    List.mem_of_getLast?_eq_some h
  refine ⟨(List.mem_filter.mp hmem).2, ?_⟩
  intro j hij
  cases hb : occursAt text kwMarker j with
  | false => rfl
  | true =>
    exfalso
    have hjlen : j ≤ text.length := by
      by_contra hgt
      have := occursAt_of_len_le text j (Nat.le_of_lt (Nat.lt_of_not_le hgt))
      rw [hb] at this
      exact Bool.true_eq_false.mp this
    have hjmem : j ∈ (List.range (text.length + 1)).filter (occursAt text kwMarker) :=
      List.mem_filter.mpr ⟨List.mem_range.mpr (Nat.lt_succ_of_le hjlen), hb⟩
    have hsorted : List.Sorted (· < ·)
        ((List.range (text.length + 1)).filter (occursAt text kwMarker)) :=
      (List.sorted_lt_range _).filter _
    have := getLast?_max_of_sorted _ hsorted i h j hjmem
    omega

/-- C10: the lesson-output parser is total and never rejects.  When the text
has no `KEYWORDS:` occurrence (equivalently, `lastIndexOf` returns none), the
content is the full untrimmed text and the keyword list is empty; when
`lastIndexOf` returns `i`, the marker occurs at `i` and at no later position,
the content is the trimmed text before `i`, and the keywords are the
comma-split, trimmed pieces after the marker with empty pieces dropped — in
particular every returned keyword is non-empty. -/
theorem c10_parser_total (text : Str) :
    (lastIndexOf text kwMarker = none ↔ ∀ i, occursAt text kwMarker i = false) ∧
    (lastIndexOf text kwMarker = none → parseLesson text = ⟨text, []⟩) ∧
    (∀ i, lastIndexOf text kwMarker = some i →
      occursAt text kwMarker i = true ∧
      (∀ j, i < j → occursAt text kwMarker j = false) ∧
      parseLesson text =
        ⟨jsTrim (text.take i),
         keywordsOf (jsTrim (text.drop (i + kwMarker.length)))⟩) ∧
    (∀ kw ∈ (parseLesson text).keywords, kw ≠ []) := by
  refine ⟨lastIndexOf_none_iff text, ?_, ?_, ?_⟩
  · intro h
    simp [parseLesson, h]
  · intro i hi
    rcases lastIndexOf_spec text i hi with ⟨h1, h2⟩
    exact ⟨h1, h2, by simp [parseLesson, hi]⟩
  · intro kw hkw
    cases hL : lastIndexOf text kwMarker with
    | none => simp [parseLesson, hL] at hkw
    | some i =>
      simp only [parseLesson, hL, keywordsOf] at hkw
      exact of_decide_eq_true (List.mem_filter.mp hkw).2

/-- Witness for C10 at the concrete text `"Hi.\nKEYWORDS: a, b"`: the marker's
last occurrence is at position 4 and the parse splits there. -/
theorem c10_parser_total_witness :
    occursAt "Hi.\nKEYWORDS: a, b".toList kwMarker 4 = true ∧
    (∀ j, 4 < j → occursAt "Hi.\nKEYWORDS: a, b".toList kwMarker j = false) ∧
    parseLesson "Hi.\nKEYWORDS: a, b".toList =
      ⟨jsTrim ("Hi.\nKEYWORDS: a, b".toList.take 4),
       keywordsOf (jsTrim ("Hi.\nKEYWORDS: a, b".toList.drop (4 + kwMarker.length)))⟩ :=
  (c10_parser_total "Hi.\nKEYWORDS: a, b".toList).2.2.1 4 (by decide)

/-! ## C7: warmer popularity ranking -/

theorem filter_orderedInsert_count (c : Nat) (x : LessonCount) (l : List LessonCount) :
    (List.orderedInsert countGE x l).filter (fun y => decide (y.count = c)) =
      if x.count = c then x :: l.filter (fun y => decide (y.count = c))
      else l.filter (fun y => decide (y.count = c)) := by
  induction l with
  | nil => by_cases hx : x.count = c <;> simp [List.orderedInsert, hx]
  | cons b t ih =>
    by_cases h : countGE x b
    · by_cases hx : x.count = c <;> by_cases hb : b.count = c <;>
        simp [List.orderedInsert, h, List.filter_cons, hx, hb]
    · simp only [List.orderedInsert, if_neg h, List.filter_cons]
      by_cases hb : b.count = c
      · by_cases hx : x.count = c
        · exact absurd (le_of_eq (hb.trans hx.symm)) h
        · simp [hb, hx, ih]
      · simp [hb, ih]

theorem filter_sortLessons (c : Nat) (l : List LessonCount) :
    (sortLessons l).filter (fun y => decide (y.count = c)) =
      l.filter (fun y => decide (y.count = c)) := by
  induction l with
  | nil => rfl
  | cons x t ih =>
    simp only [sortLessons, List.insertionSort] at ih ⊢
    rw [filter_orderedInsert_count]
    by_cases hx : x.count = c <;> simp [hx, ih, List.filter_cons]

/-- C7: the warmer sorts the fetched popularity counters descending by count
with a stable sort — the sorted list is a permutation of the input, is
sorted under `countGE`, and for every count value the subsequence of counters
having that count keeps its encounter order — then takes the top 10, every
one of which has a count at least that of every counter left out; on the
counters `{lessonA: 5, lessonB: 9, lessonC: 2}` the top-2 selection is
`lessonB` then `lessonA`. -/
theorem c7_warmer_ranking :
    (∀ l, List.Sorted countGE (sortLessons l)) ∧
    (∀ l, List.Perm (sortLessons l) l) ∧
    (∀ l c, (sortLessons l).filter (fun y => decide (y.count = c)) =
      l.filter (fun y => decide (y.count = c))) ∧
    (∀ l a b, a ∈ rankLessons l → b ∈ (sortLessons l).drop 10 → b.count ≤ a.count) ∧
    (sortLessons
        [⟨"lessonA".toList, 5⟩, ⟨"lessonB".toList, 9⟩, ⟨"lessonC".toList, 2⟩]).take 2 =
      [⟨"lessonB".toList, 9⟩, ⟨"lessonA".toList, 5⟩] := by
  refine ⟨fun l => List.sorted_insertionSort countGE l,
    fun l => List.perm_insertionSort countGE l,
    fun l c => filter_sortLessons c l, ?_, ?_⟩
  · intro l a b ha hb
    exact (List.sorted_insertionSort countGE l).rel_of_mem_take_of_mem_drop ha hb
  · decide

/-- Witness for C7 on an eleven-counter list: the counter with count 0, left
out of the top 10, has a count at most that of the top-ranked counter. -/
theorem c7_warmer_ranking_witness :
    (0 : Nat) ≤ 10 :=
  c7_warmer_ranking.2.2.2.1 ((List.range 11).map fun i => ⟨['x'], i⟩)
    ⟨['x'], 10⟩ ⟨['x'], 0⟩ (by decide) (by decide)

/-! ## C4: same-tier cache sharing across users -/

/-- C4: the lesson cache key is derived only from the lesson id and the
requesting user's confidence tier for it (`low` with no SkillRecord), so for
two different users with the same lesson and the same tier, the first user's
cache-miss request stores the generated content and the second user's request
returns that identical content from the cache — whatever the second request's
generation oracle would have said, since no generation call is made. -/
theorem c4_cache_sharing (s : AppState) (u1 u2 lessonId t : Str) (r1 r2 : UserRow)
    (hu12 : u2 ≠ u1)
    (h1 : alookup u1 s.users = some r1)
    (h2 : alookup u2 s.users = some r2)
    (hq1 : r1.quota_used + 10 ≤ r1.quota_limit)
    (hq2 : r2.quota_used + 10 ≤ r2.quota_limit)
    (htier : tierOf r2 lessonId = tierOf r1 lessonId)
    (hmiss : alookup (cacheKey lessonId (tierOf r1 lessonId)) s.cache = none) :
    ∃ s1, runOp s (.generate u1 lessonId true (some t)) =
        (s1, .okLesson (parseLesson t), [.lessonGen lessonId (tierOf r1 lessonId)]) ∧
      ∀ g2, (runOp s1 (.generate u2 lessonId true g2)).2 =
        (.okLesson (parseLesson t), []) := by
  refine ⟨{ s with
      popularity := aincr lessonId s.popularity,
      cache := aset (cacheKey lessonId (tierOf r1 lessonId)) (parseLesson t) s.cache,
      users := updateQuota s.users u1 10 }, ?_, ?_⟩
  · simp [runOp, h1, hq1, hmiss]
  · intro g2
    have hu2' : alookup u2 (updateQuota s.users u1 10) = some r2 := by
      rw [updateQuota, alookup_aupdate_ne _ _ _ _ hu12, h2]
    simp [runOp, h1, hq1, hmiss, hu2', hq2, htier, alookup_aset_self]

/-- Witness for C4: users `a` and `b`, both without a SkillRecord for lesson
`l` (tier `low`), share the entry generated by `a`'s first request. -/
theorem c4_cache_sharing_witness :
    ∃ s1, runOp ⟨[(['a'], ⟨0, 1000, []⟩), (['b'], ⟨0, 1000, []⟩)], [], [], []⟩
        (.generate ['a'] ['l'] true (some ['x'])) =
        (s1, .okLesson (parseLesson ['x']),
         [.lessonGen ['l'] (tierOf ⟨0, 1000, []⟩ ['l'])]) ∧
      ∀ g2, (runOp s1 (.generate ['b'] ['l'] true g2)).2 =
        (.okLesson (parseLesson ['x']), []) :=
  c4_cache_sharing ⟨[(['a'], ⟨0, 1000, []⟩), (['b'], ⟨0, 1000, []⟩)], [], [], []⟩
    ['a'] ['b'] ['l'] ['x'] ⟨0, 1000, []⟩ ⟨0, 1000, []⟩
    (by decide) (by decide) (by decide) (by decide) (by decide) (by decide) (by decide)

/-! ## C8: warmer skip-if-present idempotence -/

theorem warmOne_preserves (gen : Str → Confidence → Str) (lid : Str) (c : Confidence)
    (k : Str) (v : LessonData) (acc : List (Str × LessonData) × List GenCall)
    (hv : alookup k acc.1 = some v)
    (hcalls : ∀ lid' c', cacheKey lid' c' = k → GenCall.lessonGen lid' c' ∉ acc.2) :
    alookup k (warmOne gen lid acc c).1 = some v ∧
    ∀ lid' c', cacheKey lid' c' = k →
      GenCall.lessonGen lid' c' ∉ (warmOne gen lid acc c).2 := by
  unfold warmOne
  cases hx : alookup (cacheKey lid c) acc.1 with
  | some d => exact ⟨hv, hcalls⟩
  | none =>
    have hne : cacheKey lid c ≠ k := by
      intro he
      rw [he, hv] at hx
      exact Option.noConfusion hx
    constructor
    · rw [alookup_aset_ne _ _ _ _ (Ne.symm hne)]
      exact hv
    · intro lid' c' hk hmem
      rcases List.mem_append.mp hmem with hm | hm
      · exact hcalls lid' c' hk hm
      · have he : GenCall.lessonGen lid' c' = GenCall.lessonGen lid c :=
          List.mem_singleton.mp hm
        cases he
        exact hne hk

theorem warmTiers_preserves (gen : Str → Confidence → Str) (lid k : Str)
    (v : LessonData) :
    ∀ (cs : List Confidence) (acc : List (Str × LessonData) × List GenCall),
      alookup k acc.1 = some v →
      (∀ lid' c', cacheKey lid' c' = k → GenCall.lessonGen lid' c' ∉ acc.2) →
      alookup k (cs.foldl (warmOne gen lid) acc).1 = some v ∧
      ∀ lid' c', cacheKey lid' c' = k →
        GenCall.lessonGen lid' c' ∉ (cs.foldl (warmOne gen lid) acc).2 := by
  intro cs
  induction cs with
  | nil => intro acc h1 h2; exact ⟨h1, h2⟩
  | cons c cs ih =>
    intro acc h1 h2
    have h := warmOne_preserves gen lid c k v acc h1 h2
    exact ih _ h.1 h.2

theorem warmAll_preserves (curriculum : List Str) (gen : Str → Confidence → Str)
    (k : Str) (v : LessonData) :
    ∀ (ls : List LessonCount) (acc : List (Str × LessonData) × List GenCall),
      alookup k acc.1 = some v →
      (∀ lid' c', cacheKey lid' c' = k → GenCall.lessonGen lid' c' ∉ acc.2) →
      alookup k (ls.foldl (warmLesson curriculum gen) acc).1 = some v ∧
      ∀ lid' c', cacheKey lid' c' = k →
        GenCall.lessonGen lid' c' ∉ (ls.foldl (warmLesson curriculum gen) acc).2 := by
  intro ls
  induction ls with
  | nil => intro acc h1 h2; exact ⟨h1, h2⟩
  | cons lc ls ih =>
    intro acc h1 h2
    by_cases hmem : lc.lessonId ∈ curriculum
    · have h := warmTiers_preserves gen lc.lessonId k v tiers acc h1 h2
      have hfold : warmLesson curriculum gen acc lc =
          tiers.foldl (warmOne gen lc.lessonId) acc := by
        simp [warmLesson, hmem]
      rw [List.foldl_cons, hfold]
      exact ih _ h.1 h.2
    · have hfold : warmLesson curriculum gen acc lc = acc := by
        simp [warmLesson, hmem]
      rw [List.foldl_cons, hfold]
      exact ih _ h1 h2

theorem runWarmer_preserves (curriculum : List Str) (gen : Str → Confidence → Str)
    (s : AppState) (k : Str) (v : LessonData) (hv : alookup k s.cache = some v) :
    alookup k (runWarmer curriculum gen s).1.cache = some v ∧
    ∀ lid c, cacheKey lid c = k →
      GenCall.lessonGen lid c ∉ (runWarmer curriculum gen s).2 := by
  unfold runWarmer
  by_cases hp : s.popularity = []
  · simp only [if_pos hp]
    exact ⟨hv, fun lid c _ hmem => (List.not_mem_nil _ hmem)⟩
  · simp only [if_neg hp]
    have h := warmAll_preserves curriculum gen k v (rankLessons (countsOf s))
      (s.cache, []) hv (fun lid' c' _ hmem => List.not_mem_nil _ hmem)
    exact ⟨h.1, h.2⟩

theorem runWarmer_popularity (curriculum : List Str) (gen : Str → Confidence → Str)
    (s : AppState) : (runWarmer curriculum gen s).1.popularity = s.popularity := by
  unfold runWarmer
  by_cases hp : s.popularity = [] <;> simp [hp]

/-- C8: running the warmer a second time is idempotent with respect to the
entries present after the first run: the popularity data is unchanged by the
first run, and every cache entry present after the first run is neither
overwritten nor regenerated by the second run — its value is preserved and no
generation call is made for its (lesson, tier) key. -/
theorem c8_warmer_idempotent (s : AppState) (curriculum : List Str)
    (g1 g2 : Str → Confidence → Str) (k : Str) (v : LessonData)
    (h : alookup k (runWarmer curriculum g1 s).1.cache = some v) :
    (runWarmer curriculum g1 s).1.popularity = s.popularity ∧
    alookup k (runWarmer curriculum g2 (runWarmer curriculum g1 s).1).1.cache = some v ∧
    ∀ lid c, cacheKey lid c = k →
      GenCall.lessonGen lid c ∉ (runWarmer curriculum g2 (runWarmer curriculum g1 s).1).2 := by
  have hpres := runWarmer_preserves curriculum g2 (runWarmer curriculum g1 s).1 k v h
  exact ⟨runWarmer_popularity curriculum g1 s, hpres.1, hpres.2⟩

/-- Witness for C8: lesson `m` is popular and its `low`-tier entry is filled
by the first nightly run; the second run preserves it and does not regenerate
it. -/
theorem c8_warmer_idempotent_witness :
    (runWarmer [['m']] (fun _ _ => ['t'])
        ⟨[], [], [], [(['m'], 3)]⟩).1.popularity = [(['m'], 3)] ∧
    alookup (cacheKey ['m'] Confidence.low)
        (runWarmer [['m']] (fun _ _ => ['t'])
          (runWarmer [['m']] (fun _ _ => ['t'])
            ⟨[], [], [], [(['m'], 3)]⟩).1).1.cache = some (parseLesson ['t']) ∧
    ∀ lid c, cacheKey lid c = cacheKey ['m'] Confidence.low →
      GenCall.lessonGen lid c ∉
        (runWarmer [['m']] (fun _ _ => ['t'])
          (runWarmer [['m']] (fun _ _ => ['t'])
            ⟨[], [], [], [(['m'], 3)]⟩).1).2 :=
  c8_warmer_idempotent ⟨[], [], [], [(['m'], 3)]⟩ [['m']]
    (fun _ _ => ['t']) (fun _ _ => ['t'])
    (cacheKey ['m'] Confidence.low) (parseLesson ['t']) (by decide)

/-! ## C2: quota accounting over operation sequences -/

theorem alookup_updateQuota_used (users : List (Str × UserRow)) (uid uid0 : Str)
    (r : UserRow) (hu : alookup uid0 users = some r) (cost : Int) :
    ((alookup uid (updateQuota users uid0 cost)).map fun u => u.quota_used).getD 0 =
      ((alookup uid users).map fun u => u.quota_used).getD 0 +
        (if uid0 = uid then cost else 0) := by
  by_cases he : uid = uid0
  · subst he
    rw [updateQuota, alookup_aupdate_self, hu]
    simp
  · rw [updateQuota, alookup_aupdate_ne _ _ _ _ he]
    have hne : ¬ uid0 = uid := fun hcontra => he hcontra.symm
    simp [hne]

theorem runOp_quota_charge (uid : Str) (s : AppState) (op : Op)
    (h : isSuccess (runOp s op).2.1 = true) :
    quotaUsedOf uid (runOp s op).1 = quotaUsedOf uid s + chargeFor uid s op := by
  cases op with
  | diagnostic uid0 unitId unitFound genOk =>
    cases hu : alookup uid0 s.users with
    | none => simp [runOp, hu, isSuccess] at h
    | some r =>
      by_cases hq : r.quota_used + 5 ≤ r.quota_limit
      · cases unitFound with
        | false => simp [runOp, hu, hq, isSuccess] at h
        | true =>
          cases genOk with
          | false => simp [runOp, hu, hq, isSuccess] at h
          | true =>
            have hch : chargeFor uid s (Op.diagnostic uid0 unitId true true) =
                if uid0 = uid then 5 else 0 := by
              simp [chargeFor, opUser, nominalCost]
            have hrun : (runOp s (Op.diagnostic uid0 unitId true true)).1 =
                { s with users := updateQuota s.users uid0 5 } := by
              simp [runOp, hu, hq]
            rw [hch, hrun]
            simp only [quotaUsedOf]
            exact alookup_updateQuota_used s.users uid uid0 r hu 5
      · simp [runOp, hu, hq, isSuccess] at h
  | generate uid0 lid lessonFound genText =>
    cases hu : alookup uid0 s.users with
    | none => simp [runOp, hu, isSuccess] at h
    | some r =>
      by_cases hq : r.quota_used + 10 ≤ r.quota_limit
      · cases lessonFound with
        | false => simp [runOp, hu, hq, isSuccess] at h
        | true =>
          cases hc : alookup (cacheKey lid (tierOf r lid)) s.cache with
          | some d =>
            have hch : chargeFor uid s (Op.generate uid0 lid true genText) = 0 := by
              by_cases he : uid0 = uid
              · subst he
                simp [chargeFor, opUser, hu, hc]
              · simp [chargeFor, opUser, he]
            have hrun : (runOp s (Op.generate uid0 lid true genText)).1 =
                { s with popularity := aincr lid s.popularity } := by
              simp [runOp, hu, hq, hc]
            rw [hch, hrun]
            simp [quotaUsedOf]
          | none =>
            cases genText with
            | none => simp [runOp, hu, hq, hc, isSuccess] at h
            | some t =>
              have hch : chargeFor uid s (Op.generate uid0 lid true (some t)) =
                  if uid0 = uid then 10 else 0 := by
                by_cases he : uid0 = uid
                · subst he
                  simp [chargeFor, opUser, hu, hc]
                · simp [chargeFor, opUser, he]
              have hrun : (runOp s (Op.generate uid0 lid true (some t))).1 =
                  { s with
                      popularity := aincr lid s.popularity,
                      cache := aset (cacheKey lid (tierOf r lid)) (parseLesson t)
                        s.cache,
                      users := updateQuota s.users uid0 10 } := by
                simp [runOp, hu, hq, hc]
              rw [hch, hrun]
              simp only [quotaUsedOf]
              exact alookup_updateQuota_used s.users uid uid0 r hu 10
      · simp [runOp, hu, hq, isSuccess] at h
  | questions uid0 lid lessonFound genOk =>
    cases hu : alookup uid0 s.users with
    | none => simp [runOp, hu, isSuccess] at h
    | some r =>
      by_cases hq : r.quota_used + 5 ≤ r.quota_limit
      · cases lessonFound with
        | false => simp [runOp, hu, hq, isSuccess] at h
        | true =>
          cases genOk with
          | false => simp [runOp, hu, hq, isSuccess] at h
          | true =>
            have hch : chargeFor uid s (Op.questions uid0 lid true true) =
                if uid0 = uid then 5 else 0 := by
              simp [chargeFor, opUser, nominalCost]
            have hrun : (runOp s (Op.questions uid0 lid true true)).1 =
                { s with users := updateQuota s.users uid0 5 } := by
              simp [runOp, hu, hq]
            rw [hch, hrun]
            simp only [quotaUsedOf]
            exact alookup_updateQuota_used s.users uid uid0 r hu 5
      · simp [runOp, hu, hq, isSuccess] at h
  | homework uid0 gen =>
    cases hu : alookup uid0 s.users with
    | none => simp [runOp, hu, isSuccess] at h
    | some r =>
      by_cases hq : r.quota_used + 15 ≤ r.quota_limit
      · cases gen with
        | ok sol =>
          have hch : chargeFor uid s (Op.homework uid0 (.ok sol)) =
              if uid0 = uid then 15 else 0 := by
            simp [chargeFor, opUser, nominalCost]
          have hrun : (runOp s (Op.homework uid0 (.ok sol))).1 =
              { s with
                  jobs := aupdate (freshJobId s.jobs)
                    (fun j => { j with status := .completed sol })
                    (aupdate (freshJobId s.jobs)
                      (fun j => { j with status := .processing })
                      (s.jobs ++ [(freshJobId s.jobs, ⟨uid0, .pending⟩)])),
                  users := updateQuota s.users uid0 15 } := by
            simp [runOp, hu, hq]
          rw [hch, hrun]
          simp only [quotaUsedOf]
          exact alookup_updateQuota_used s.users uid uid0 r hu 15
        | error msg => simp [runOp, hu, hq, isSuccess] at h
      · simp [runOp, hu, hq, isSuccess] at h

/-- C2 counterexample: with ample quota, the same user generates the same
lesson twice; both requests complete successfully (the second is a cache
hit), the nominal costs sum to 20, yet `quota_used` ends at 10 — so a
successfully completed costed operation (the cache-hit generation) left
`quota_used` unincremented, refuting the claim as stated. -/
theorem c2_quota_counterexample :
    allSucceeded (runOps ⟨[(['u'], ⟨0, 1000, []⟩)], [], [], []⟩
        [.generate ['u'] ['l'] true (some ['t']),
         .generate ['u'] ['l'] true (some ['t'])]).2 ∧
    quotaUsedOf ['u'] (runOps ⟨[(['u'], ⟨0, 1000, []⟩)], [], [], []⟩
        [.generate ['u'] ['l'] true (some ['t']),
         .generate ['u'] ['l'] true (some ['t'])]).1 = 10 ∧
    nominalCost (.generate ['u'] ['l'] true (some ['t'])) +
      nominalCost (.generate ['u'] ['l'] true (some ['t'])) = 20 ∧
    (10 : Int) ≠ 20 :=
  ⟨by decide, by decide, by decide, by decide⟩

/-- C2 (amended): for every user and every sequence of costed operations that
all complete successfully, the final `quota_used` equals its initial value
plus the sum of the costs of the operations that performed their costed
generation work — every successful operation increments `quota_used` by its
cost, except a lesson generation served from the cache, which completes
successfully without incrementing (`totalCharge` counts such a cache hit as
zero). -/
theorem c2_quota_accounting (uid : Str) (s : AppState) (ops : List Op)
    (h : allSucceeded (runOps s ops).2) :
    quotaUsedOf uid (runOps s ops).1 = quotaUsedOf uid s + totalCharge uid s ops := by
  induction ops generalizing s with
  | nil => simp [runOps, totalCharge]
  | cons op rest ih =>
    simp only [runOps, allSucceeded, List.mem_cons] at h
    have h1 : isSuccess (runOp s op).2.1 = true := h _ (Or.inl rfl)
    have h2 : allSucceeded (runOps (runOp s op).1 rest).2 :=
      fun x hx => h x (Or.inr hx)
    have hst : (runOps s (op :: rest)).1 = (runOps (runOp s op).1 rest).1 := by
      simp [runOps]
    rw [hst, ih _ h2, runOp_quota_charge uid s op h1, totalCharge]
    ring

/-- Witness for C2's amended theorem on the counterexample scenario: initial
usage 0, first generation charges 10, the cache-hit repetition charges 0. -/
theorem c2_quota_accounting_witness :
    quotaUsedOf ['u'] (runOps ⟨[(['u'], ⟨0, 1000, []⟩)], [], [], []⟩
        [.generate ['u'] ['l'] true (some ['t']),
         .generate ['u'] ['l'] true (some ['t'])]).1 =
      quotaUsedOf ['u'] ⟨[(['u'], ⟨0, 1000, []⟩)], [], [], []⟩ +
        totalCharge ['u'] ⟨[(['u'], ⟨0, 1000, []⟩)], [], [], []⟩
          [.generate ['u'] ['l'] true (some ['t']),
           .generate ['u'] ['l'] true (some ['t'])] :=
  c2_quota_accounting ['u'] ⟨[(['u'], ⟨0, 1000, []⟩)], [], [], []⟩
    [.generate ['u'] ['l'] true (some ['t']),
     .generate ['u'] ['l'] true (some ['t'])] (by decide)

end AiSchool
